import Mathlib

/-!
Verification development for the xtream2m3u front-end wizard
(`src/frontend/script.js`).

The script drives a three-step wizard: credentials are entered, a flat
category list is fetched from `/categories`, the user selects category
chips with an include/exclude filter mode, and a playlist is requested
from `/m3u`.  We embed the data model and the request-construction /
state-transition logic shallowly: query strings become association lists
of key/value pairs, the DOM chip list becomes the ordered list of
displayed categories with selection as a predicate on display indices,
and the wizard's mutable page state becomes an explicit record with a
step relation.
-/

namespace Xtream2m3u

/-- A raw category record as returned by `/categories`:
`{category_id, category_name, content_type?}`.  `content_type` is
optional in the wire format. -/
structure Category where
  category_id : String
  category_name : String
  content_type : Option String
deriving DecidableEq

/-- The effective content type of a category, mirroring the JavaScript
expression `category.content_type || "live"`: an absent field and the
empty string (both falsy in JS) default to `"live"`. -/
def effType (c : Category) : String :=
  match c.content_type with
  | none => "live"
  | some s => if s = "" then "live" else s

/-- `URLSearchParams.get`: the value of the first pair carrying the key. -/
def getParam (k : String) : List (String × String) → Option String
  | [] => none
  | (k', v) :: rest => if k' = k then some v else getParam k rest

/-- The query built by `loadCategories` (script.js lines 24–32):
`url`, `username`, `password` always, and `include_vod=true` appended
only when the VOD checkbox is checked. -/
def buildCategoryParams (url username password : String) (includeVod : Bool) :
    List (String × String) :=
  [("url", url), ("username", username), ("password", password)]
    ++ (if includeVod then [("include_vod", "true")] else [])

/-- The query built by `confirmGeneration` (script.js lines 263–280):
the three credentials and the fixed `nostreamproxy=true`, then
`include_vod=true` when the VOD checkbox is checked, then — only when
some categories are selected — `wanted_groups` (filter mode `include`)
or `unwanted_groups` (any other mode) carrying the comma-join of the
selected category names. -/
def buildPlaylistParams (url username password : String) (includeVod : Bool)
    (selectedCategories : List String) (filterMode : String) :
    List (String × String) :=
  [("url", url), ("username", username), ("password", password),
   ("nostreamproxy", "true")]
    ++ (if includeVod then [("include_vod", "true")] else [])
    ++ (if selectedCategories.length > 0 then
          (if filterMode = "include" then
            [("wanted_groups", String.intercalate "," selectedCategories)]
          else
            [("unwanted_groups", String.intercalate "," selectedCategories)])
        else [])

/-- The three content-type buckets built by `displayCategoryChips`
(script.js lines 61–65). -/
structure Grouped where
  live : List Category
  vod : List Category
  series : List Category
deriving DecidableEq

/-- One step of the grouping loop (script.js lines 67–72): the category
is pushed onto the bucket named by its effective content type; a
category whose content type names no bucket is dropped (the JS guard
`if (groupedCategories[contentType])` fails for any other key). -/
def pushCat (g : Grouped) (c : Category) : Grouped :=
  if effType c = "live" then { g with live := g.live ++ [c] }
  else if effType c = "vod" then { g with vod := g.vod ++ [c] }
  else if effType c = "series" then { g with series := g.series ++ [c] }
  else g

/-- The grouping pass of `displayCategoryChips`. -/
def groupCategories (cats : List Category) : Grouped :=
  cats.foldl pushCat ⟨[], [], []⟩

/-- The chips in document order: `displayCategoryChips` renders the
`live` section, then `vod`, then `series` (script.js lines 75–114), so
`querySelectorAll` traversals see the categories in this order. -/
def chipList (cats : List Category) : List Category :=
  (groupCategories cats).live ++ (groupCategories cats).vod
    ++ (groupCategories cats).series

/-- Whether the chip at display index `i` belongs to the section
`sect`: its `data-content-type` attribute (the effective content type,
script.js line 105) equals the section key. -/
def inSection (sect : String) (chips : List Category) (i : Nat) : Bool :=
  match chips.get? i with
  | some c => effType c == sect
  | none => false

/-- The section "Select All" handler (script.js lines 117–141): collect
the chips whose `data-content-type` is the section, check whether every
one is currently selected, and then deselect all of them (when all were
selected) or select all of them (otherwise).  Chips are identified by
their display index; other chips are untouched. -/
def selectAllInSection (sect : String) (chips : List Category) (sel : Nat → Bool) :
    Nat → Bool :=
  let sectionIdxs := (List.range chips.length).filter (fun i => inSection sect chips i)
  let allSelected := sectionIdxs.all (fun i => sel i)
  fun i => if inSection sect chips i then (if allSelected then false else true) else sel i

/-- `toggleChip` (script.js lines 146–149) on the chip at display
index `i`: flips the `selected` class of that chip only. -/
def toggleChip (i : Nat) (sel : Nat → Bool) : Nat → Bool :=
  fun j => if j = i then !sel j else sel j

/-- A sequence of individual chip clicks, applied left to right. -/
def applyToggles (l : List Nat) (sel : Nat → Bool) : Nat → Bool :=
  l.foldl (fun s i => toggleChip i s) sel

/-- `getSelectedCategories` (script.js lines 307–310):
`querySelectorAll(".category-chip.selected")` returns the selected
chips in document order, and each contributes its
`dataset.categoryName`. -/
def getSelectedCategories (cats : List Category) (sel : Nat → Bool) : List String :=
  ((chipList cats).enum.filter (fun p => sel p.1)).map (fun p => p.2.category_name)

/-- A category record with a content type naming none of the three
buckets. -/
def radioCat : Category := ⟨"1", "X", some "radio"⟩

/-- Concrete categories for the News/Sports example. -/
def newsCat : Category := ⟨"1", "News", none⟩

/-- See `newsCat`. -/
def sportsCat : Category := ⟨"2", "Sports", none⟩

/-- A concrete VOD category. -/
def movieCat : Category := ⟨"20", "Movie X", some "vod"⟩

/-- A concrete partial selection: only the chip at display index 0. -/
def selW : Nat → Bool := fun i => i == 0

/-- The JSON body of a non-200 `/categories` response:
`{error?, details?}`. -/
structure ErrBody where
  error : Option String
  details : Option String
deriving DecidableEq

/-- JS `a || b` where `a` is a possibly-absent string field: an absent
field (`undefined`) and the empty string are both falsy and fall
through to `b`. -/
def jsOrStr (a : Option String) (b : String) : String :=
  match a with
  | none => b
  | some s => if s = "" then b else s

/-- The message of the error thrown on a failed category fetch
(script.js lines 37–41): `data.details || data.error ||
"Failed to load categories"`. -/
def pickLoadErrorMessage (body : ErrBody) : String :=
  jsOrStr body.details (jsOrStr body.error "Failed to load categories")

/-- The page state the script mutates: the wizard step, the input
fields, the module-level `categories` array, the selected chips (by
display index), the download link's object-URL (if a blob URL was ever
assigned), the set of object URLs created and not yet revoked, and a
counter producing fresh object URLs. -/
structure WizState where
  step : Nat
  url : String
  username : String
  password : String
  includeVod : Bool
  categories : List Category
  selected : List Nat
  href : Option Nat
  live : List Nat
  counter : Nat
deriving DecidableEq

/-- The freshly loaded page: step 1, empty fields, no categories, no
selection, no download link. -/
def initState : WizState := ⟨1, "", "", "", false, [], [], none, [], 0⟩

/-- `loadCategories` (script.js lines 4–54) as a state transformer.
`respond` stands for the `/categories` transport; the result carries
the new page state, the request that was sent (if any) and the
displayed error message (if any).  The trimmed credentials are
validated before anything else happens; on success the category store
is replaced, the chips re-rendered (clearing the selection) and step 2
shown; on failure step 1 is shown again with the thrown message
prefixed by the `showError` template. -/
def runLoadCategories (s : WizState)
    (respond : List (String × String) → Except ErrBody (List Category)) :
    WizState × Option (List (String × String)) × Option String :=
  if s.url.trim = "" ∨ s.username.trim = "" ∨ s.password.trim = "" then
    (s, none, some "Please fill in all required fields")
  else
    match respond (buildCategoryParams s.url.trim s.username.trim
        s.password.trim s.includeVod) with
    | .ok data =>
        ({ s with categories := data, selected := [], step := 2 },
          some (buildCategoryParams s.url.trim s.username.trim
            s.password.trim s.includeVod), none)
    | .error body =>
        ({ s with step := 1 },
          some (buildCategoryParams s.url.trim s.username.trim
            s.password.trim s.includeVod),
          some ("Failed to load categories: " ++ pickLoadErrorMessage body))

/-- `confirmGeneration` (script.js lines 245–305) as a state
transformer.  `filterMode` is the checked radio button; `respond`
stands for the `/m3u` transport.  On success a fresh object URL is
created (without revoking any previous one) and assigned to the
download link, and step 3 is shown; on failure step 2 is shown again
with the response text (or a generic message when it is empty). -/
def runConfirmGeneration (s : WizState) (filterMode : String)
    (respond : List (String × String) → Except String Unit) :
    WizState × List (String × String) × Option String :=
  match respond (buildPlaylistParams s.url.trim s.username.trim s.password.trim
      s.includeVod (getSelectedCategories s.categories (fun i => s.selected.contains i))
      filterMode) with
  | .ok _ =>
      ({ s with
          href := some s.counter,
          live := s.counter :: s.live,
          counter := s.counter + 1,
          step := 3 },
        buildPlaylistParams s.url.trim s.username.trim s.password.trim
          s.includeVod (getSelectedCategories s.categories (fun i => s.selected.contains i))
          filterMode,
        none)
  | .error txt =>
      ({ s with step := 2 },
        buildPlaylistParams s.url.trim s.username.trim s.password.trim
          s.includeVod (getSelectedCategories s.categories (fun i => s.selected.contains i))
          filterMode,
        some ("Failed to generate M3U: "
          ++ (if txt = "" then "Failed to generate M3U playlist" else txt)))

/-- `goBackToStep1` (script.js lines 338–340): only shows step 1. -/
def goBackToStep1 (s : WizState) : WizState := { s with step := 1 }

/-- `useOtherCredentials` (script.js lines 364–372): clears the three
credential fields and shows step 1; categories and chips are kept. -/
def useOtherCredentials (s : WizState) : WizState :=
  { s with url := "", username := "", password := "", step := 1 }

/-- `startOver` (script.js lines 342–362): clears the credential
fields and the VOD checkbox, empties the category store and the chip
container (losing the selection), revokes the download link's object
URL when one was assigned, and shows step 1.  The link's `href`
attribute itself is not reassigned, only hidden. -/
def startOver (s : WizState) : WizState :=
  { s with
      url := "",
      username := "",
      password := "",
      includeVod := false,
      categories := [],
      selected := [],
      live := match s.href with
        | some n => s.live.erase n
        | none => s.live,
      step := 1 }

/-- Modelled from the spec: the page `index.html`, which wires each
button to a wizard step, is not under `src/`; §4.4 of the spec fixes
which action is available in which step — the category fetch in
`Credentials` (step 1), generation, "use other credentials" and "go
back" in `Selecting` (step 2), and "start over" in `Result` (step 3).
Each transition's effect on the state is the corresponding `script.js`
function embedded above. -/
inductive WStep : WizState → WizState → Prop where
  | load (s : WizState)
      (respond : List (String × String) → Except ErrBody (List Category))
      (h : s.step = 1) : WStep s (runLoadCategories s respond).1
  | generate (s : WizState) (filterMode : String)
      (respond : List (String × String) → Except String Unit)
      (h : s.step = 2) : WStep s (runConfirmGeneration s filterMode respond).1
  | startOverBtn (s : WizState) (h : s.step = 3) : WStep s (startOver s)
  | useOtherBtn (s : WizState) (h : s.step = 2) : WStep s (useOtherCredentials s)
  | goBackBtn (s : WizState) (h : s.step = 2) : WStep s (goBackToStep1 s)

/-- Page states reachable from a fresh page. -/
inductive Reachable : WizState → Prop where
  | start : Reachable initState
  | next {s s' : WizState} : Reachable s → WStep s s' → Reachable s'

/-- The artifact-reference invariant: either no object URL is live, or
exactly one is — the one held by the download link while step 3
(`Result`) is shown. -/
def ArtifactInv (s : WizState) : Prop :=
  s.live = [] ∨ ∃ n, s.live = [n] ∧ s.href = some n ∧ s.step = 3

/-- A concrete filled-in credentials state. -/
def credState : WizState :=
  { initState with url := "u", username := "u", password := "u" }

/-- A transport that always fails with `error` set and no `details`. -/
def failRespond : List (String × String) → Except ErrBody (List Category) :=
  fun _ => .error ⟨some "Boom", none⟩

/-- An error body with `details` present but empty. -/
def emptyDetailsBody : ErrBody := ⟨some "Boom", some ""⟩

end Xtream2m3u

namespace Xtream2m3u

/-- The grouping loop is the three content-type filters: the fold
appends each category to the bucket of its effective type, so each
bucket ends up as the order-preserving filter of the input. -/
theorem foldl_pushCat (cats : List Category) (g : Grouped) :
    cats.foldl pushCat g =
      ⟨g.live ++ cats.filter (fun c => effType c == "live"),
       g.vod ++ cats.filter (fun c => effType c == "vod"),
       g.series ++ cats.filter (fun c => effType c == "series")⟩ := by
  induction cats generalizing g with
  | nil => simp
  | cons c cs ih =>
    rw [List.foldl_cons, ih]
    by_cases h1 : effType c = "live"
    · simp [pushCat, h1, List.filter_cons]
    · by_cases h2 : effType c = "vod"
      · simp [pushCat, h1, h2, List.filter_cons]
      · by_cases h3 : effType c = "series"
        · simp [pushCat, h1, h2, h3, List.filter_cons]
        · simp [pushCat, h1, h2, h3, List.filter_cons]

/-- Restatement of `foldl_pushCat` for `groupCategories`. -/
theorem groupCategories_eq (cats : List Category) :
    groupCategories cats =
      ⟨cats.filter (fun c => effType c == "live"),
       cats.filter (fun c => effType c == "vod"),
       cats.filter (fun c => effType c == "series")⟩ := by
  unfold groupCategories
  rw [foldl_pushCat]
  simp

/-- Concatenating the three filters permutes the input when every
element lands in one of them. -/
theorem filter_three_perm (cats : List Category)
    (h : ∀ c ∈ cats, effType c = "live" ∨ effType c = "vod" ∨ effType c = "series") :
    (cats.filter (fun c => effType c == "live")
      ++ cats.filter (fun c => effType c == "vod")
      ++ cats.filter (fun c => effType c == "series")).Perm cats := by
  induction cats with
  | nil => simp
  | cons c cs ih =>
    have hcs : ∀ x ∈ cs, effType x = "live" ∨ effType x = "vod" ∨ effType x = "series" :=
      fun x hx => h x (List.mem_cons_of_mem c hx)
    have hperm := ih hcs
    rcases h c (List.mem_cons_self c cs) with h1 | h1 | h1
    · have fL : List.filter (fun x => effType x == "live") (c :: cs)
          = c :: List.filter (fun x => effType x == "live") cs := by
        simp [List.filter_cons, h1]
      have fV : List.filter (fun x => effType x == "vod") (c :: cs)
          = List.filter (fun x => effType x == "vod") cs := by
        simp [List.filter_cons, h1]
      have fS : List.filter (fun x => effType x == "series") (c :: cs)
          = List.filter (fun x => effType x == "series") cs := by
        simp [List.filter_cons, h1]
      rw [fL, fV, fS, List.cons_append, List.cons_append]
      exact hperm.cons c
    · have fL : List.filter (fun x => effType x == "live") (c :: cs)
          = List.filter (fun x => effType x == "live") cs := by
        simp [List.filter_cons, h1]
      have fV : List.filter (fun x => effType x == "vod") (c :: cs)
          = c :: List.filter (fun x => effType x == "vod") cs := by
        simp [List.filter_cons, h1]
      have fS : List.filter (fun x => effType x == "series") (c :: cs)
          = List.filter (fun x => effType x == "series") cs := by
        simp [List.filter_cons, h1]
      rw [fL, fV, fS]
      have hmid := @List.perm_middle _ c
        (cs.filter (fun x => effType x == "live"))
        (cs.filter (fun x => effType x == "vod")
          ++ cs.filter (fun x => effType x == "series"))
      have hshape : cs.filter (fun x => effType x == "live")
            ++ (c :: cs.filter (fun x => effType x == "vod"))
            ++ cs.filter (fun x => effType x == "series")
          = cs.filter (fun x => effType x == "live")
            ++ (c :: (cs.filter (fun x => effType x == "vod")
              ++ cs.filter (fun x => effType x == "series"))) := by simp
      rw [hshape]
      refine hmid.trans (List.Perm.cons c ?_)
      simpa [List.append_assoc] using hperm
    · have fL : List.filter (fun x => effType x == "live") (c :: cs)
          = List.filter (fun x => effType x == "live") cs := by
        simp [List.filter_cons, h1]
      have fV : List.filter (fun x => effType x == "vod") (c :: cs)
          = List.filter (fun x => effType x == "vod") cs := by
        simp [List.filter_cons, h1]
      have fS : List.filter (fun x => effType x == "series") (c :: cs)
          = c :: List.filter (fun x => effType x == "series") cs := by
        simp [List.filter_cons, h1]
      rw [fL, fV, fS]
      have hmid := @List.perm_middle _ c
        (cs.filter (fun x => effType x == "live")
          ++ cs.filter (fun x => effType x == "vod"))
        (cs.filter (fun x => effType x == "series"))
      exact hmid.trans (List.Perm.cons c hperm)

/-- C3 (amended): for every category list whose records carry an
effective content type among live/vod/series (in particular whenever
`content_type` is absent, empty, or one of the three literals), the
grouping puts every category in exactly one of the three groups, the
concatenation of the groups is a permutation of the input, categories
without a `content_type` land in `live`, and, the groups being filters
of the input, each preserves the original relative order. -/
theorem category_grouping_partition (cats : List Category)
    (h : ∀ c ∈ cats, effType c = "live" ∨ effType c = "vod" ∨ effType c = "series") :
    (groupCategories cats).live = cats.filter (fun c => effType c == "live")
    ∧ (groupCategories cats).vod = cats.filter (fun c => effType c == "vod")
    ∧ (groupCategories cats).series = cats.filter (fun c => effType c == "series")
    ∧ ((groupCategories cats).live ++ (groupCategories cats).vod
        ++ (groupCategories cats).series).Perm cats
    ∧ (∀ c ∈ cats, c.content_type = none → c ∈ (groupCategories cats).live)
    ∧ (∀ c ∈ cats,
        (c ∈ (groupCategories cats).live ∧ c ∉ (groupCategories cats).vod
          ∧ c ∉ (groupCategories cats).series)
        ∨ (c ∉ (groupCategories cats).live ∧ c ∈ (groupCategories cats).vod
          ∧ c ∉ (groupCategories cats).series)
        ∨ (c ∉ (groupCategories cats).live ∧ c ∉ (groupCategories cats).vod
          ∧ c ∈ (groupCategories cats).series)) := by
  refine ⟨by simp [groupCategories_eq], by simp [groupCategories_eq],
    by simp [groupCategories_eq], ?_, ?_, ?_⟩
  · simpa [groupCategories_eq] using filter_three_perm cats h
  · intro c hc hnone
    have ht : effType c = "live" := by simp [effType, hnone]
    simp [groupCategories_eq, List.mem_filter, hc, ht]
  · intro c hc
    rcases h c hc with h1 | h1 | h1
    · exact Or.inl (by simp [groupCategories_eq, List.mem_filter, hc, h1])
    · exact Or.inr (Or.inl (by simp [groupCategories_eq, List.mem_filter, hc, h1]))
    · exact Or.inr (Or.inr (by simp [groupCategories_eq, List.mem_filter, hc, h1]))

/-- Witness for C3: a live category (absent `content_type`) and a VOD
category. -/
theorem category_grouping_partition_witness :
    (∀ c ∈ [newsCat, movieCat],
      effType c = "live" ∨ effType c = "vod" ∨ effType c = "series")
    ∧ ((groupCategories [newsCat, movieCat]).live
          = List.filter (fun c => effType c == "live") [newsCat, movieCat]
      ∧ (groupCategories [newsCat, movieCat]).vod
          = List.filter (fun c => effType c == "vod") [newsCat, movieCat]
      ∧ (groupCategories [newsCat, movieCat]).series
          = List.filter (fun c => effType c == "series") [newsCat, movieCat]
      ∧ ((groupCategories [newsCat, movieCat]).live
          ++ (groupCategories [newsCat, movieCat]).vod
          ++ (groupCategories [newsCat, movieCat]).series).Perm [newsCat, movieCat]
      ∧ (∀ c ∈ [newsCat, movieCat], c.content_type = none
          → c ∈ (groupCategories [newsCat, movieCat]).live)
      ∧ (∀ c ∈ [newsCat, movieCat],
          (c ∈ (groupCategories [newsCat, movieCat]).live
            ∧ c ∉ (groupCategories [newsCat, movieCat]).vod
            ∧ c ∉ (groupCategories [newsCat, movieCat]).series)
          ∨ (c ∉ (groupCategories [newsCat, movieCat]).live
            ∧ c ∈ (groupCategories [newsCat, movieCat]).vod
            ∧ c ∉ (groupCategories [newsCat, movieCat]).series)
          ∨ (c ∉ (groupCategories [newsCat, movieCat]).live
            ∧ c ∉ (groupCategories [newsCat, movieCat]).vod
            ∧ c ∈ (groupCategories [newsCat, movieCat]).series))) :=
  ⟨by decide, category_grouping_partition [newsCat, movieCat] (by decide)⟩

/-- C3 counterexample: a category whose `content_type` is `"radio"` is
dropped by the grouping loop — it lands in none of the three groups, so
the union of the groups does not reconstruct the input. -/
theorem category_grouping_counterexample :
    radioCat ∈ [radioCat]
    ∧ (groupCategories [radioCat]).live = []
    ∧ (groupCategories [radioCat]).vod = []
    ∧ (groupCategories [radioCat]).series = []
    ∧ ¬ ((groupCategories [radioCat]).live ++ (groupCategories [radioCat]).vod
        ++ (groupCategories [radioCat]).series).Perm [radioCat] := by
  decide

/-- C2: the wire value of the group filter is the comma-join of the
selected categories' names (not their ids): with the two chips for ids
`"1"`/`"2"` (names News and Sports) selected, include mode emits
`wanted_groups=News,Sports` and no `unwanted_groups`, and exclude mode
emits `unwanted_groups=News,Sports` and no `wanted_groups`. -/
theorem selected_names_wire_value (url username password : String) (includeVod : Bool) :
    getSelectedCategories [newsCat, sportsCat] (fun _ => true) = ["News", "Sports"]
    ∧ getParam "wanted_groups"
        (buildPlaylistParams url username password includeVod
          (getSelectedCategories [newsCat, sportsCat] (fun _ => true)) "include")
      = some "News,Sports"
    ∧ getParam "unwanted_groups"
        (buildPlaylistParams url username password includeVod
          (getSelectedCategories [newsCat, sportsCat] (fun _ => true)) "include")
      = none
    ∧ getParam "unwanted_groups"
        (buildPlaylistParams url username password includeVod
          (getSelectedCategories [newsCat, sportsCat] (fun _ => true)) "exclude")
      = some "News,Sports"
    ∧ getParam "wanted_groups"
        (buildPlaylistParams url username password includeVod
          (getSelectedCategories [newsCat, sportsCat] (fun _ => true)) "exclude")
      = none := by
  have hsel : getSelectedCategories [newsCat, sportsCat] (fun _ => true)
      = ["News", "Sports"] := by decide
  have hj : String.intercalate "," ["News", "Sports"] = "News,Sports" := by decide
  refine ⟨hsel, ?_, ?_, ?_, ?_⟩ <;> rw [hsel] <;> cases includeVod <;>
    simp [buildPlaylistParams, getParam, hj]

/-- C1: with the selection empty, neither group-filter key is emitted;
with the selection non-empty, exactly the key matching the filter mode
is emitted, never both. -/
theorem playlist_group_filter_keys (url username password : String)
    (includeVod : Bool) (selectedCategories : List String) (filterMode : String)
    (hm : filterMode = "include" ∨ filterMode = "exclude") :
    getParam "wanted_groups"
        (buildPlaylistParams url username password includeVod selectedCategories filterMode)
      = (if selectedCategories ≠ [] ∧ filterMode = "include" then
          some (String.intercalate "," selectedCategories) else none)
    ∧ getParam "unwanted_groups"
        (buildPlaylistParams url username password includeVod selectedCategories filterMode)
      = (if selectedCategories ≠ [] ∧ filterMode = "exclude" then
          some (String.intercalate "," selectedCategories) else none) := by
  rcases hm with hm | hm <;> subst hm <;>
    cases includeVod <;> cases selectedCategories <;>
      simp [buildPlaylistParams, getParam]

/-- Witness for C1: a concrete run with a non-empty selection in
include mode. -/
theorem playlist_group_filter_keys_witness :
    ("include" = "include" ∨ ("include" : String) = "exclude")
    ∧ (getParam "wanted_groups"
          (buildPlaylistParams "u" "n" "p" false ["News"] "include")
        = (if (["News"] : List String) ≠ [] ∧ ("include" : String) = "include" then
            some (String.intercalate "," ["News"]) else none)
      ∧ getParam "unwanted_groups"
          (buildPlaylistParams "u" "n" "p" false ["News"] "include")
        = (if (["News"] : List String) ≠ [] ∧ ("include" : String) = "exclude" then
            some (String.intercalate "," ["News"]) else none)) :=
  ⟨Or.inl rfl, playlist_group_filter_keys "u" "n" "p" false ["News"] "include" (Or.inl rfl)⟩

/-- A display index belongs to the filtered section index list exactly
when its chip carries the section's content type. -/
theorem mem_sectionIdxs (sect : String) (chips : List Category) (i : Nat) :
    i ∈ (List.range chips.length).filter (fun i => inSection sect chips i)
      ↔ inSection sect chips i = true := by
  rw [List.mem_filter, List.mem_range]
  constructor
  · rintro ⟨-, h⟩
    exact h
  · intro h
    refine ⟨?_, h⟩
    by_contra hlt
    have hn : chips[i]? = none := by
      rw [List.getElem?_eq_none_iff]
      omega
    simp [inSection, hn] at h

/-- The "all selected" check of the section handler holds exactly when
every chip of the section is selected. -/
theorem sectionAll_iff (sect : String) (chips : List Category) (s : Nat → Bool) :
    (((List.range chips.length).filter (fun i => inSection sect chips i)).all
        (fun i => s i) = true)
      ↔ (∀ i, inSection sect chips i = true → s i = true) := by
  rw [List.all_eq_true]
  constructor
  · intro H i hi
    exact H i ((mem_sectionIdxs sect chips i).mpr hi)
  · intro H i hi
    exact H i ((mem_sectionIdxs sect chips i).mp hi)

/-- When every chip of the section is selected, the section handler
deselects each chip of the section. -/
theorem selectAll_clears_of_all (sect : String) (chips : List Category)
    (s : Nat → Bool) (H : ∀ i, inSection sect chips i = true → s i = true) :
    ∀ i, inSection sect chips i = true → selectAllInSection sect chips s i = false := by
  intro i hi
  have ha : ((List.range chips.length).filter (fun i => inSection sect chips i)).all
      (fun i => s i) = true := (sectionAll_iff sect chips s).mpr H
  simp [selectAllInSection, hi, ha]

/-- When some chip of the section is unselected, the section handler
selects each chip of the section. -/
theorem selectAll_fills_of_exists (sect : String) (chips : List Category)
    (s : Nat → Bool) (hex : ∃ i, inSection sect chips i = true ∧ s i = false) :
    ∀ i, inSection sect chips i = true → selectAllInSection sect chips s i = true := by
  intro i hi
  have ha : ((List.range chips.length).filter (fun i => inSection sect chips i)).all
      (fun i => s i) = false := by
    cases hb : ((List.range chips.length).filter
        (fun i => inSection sect chips i)).all (fun i => s i) with
    | false => rfl
    | true =>
      rcases hex with ⟨j, hj, hjf⟩
      have := (sectionAll_iff sect chips s).mp hb j hj
      rw [this] at hjf
      exact absurd hjf (by simp)
  simp [selectAllInSection, hi, ha]

/-- C5 (amended): the section "Select All" recomputes against the
current membership — if every chip of the section is selected it
deselects them all, otherwise it selects them all, leaving other chips
untouched; and applied twice with no intervening mutation it leaves the
section unselected, provided the section was not already entirely
selected before the first click (from an entirely selected section two
clicks re-select it). -/
theorem select_all_in_section_toggle (sect : String) (chips : List Category)
    (sel : Nat → Bool) :
    ((∀ i, inSection sect chips i = true → sel i = true)
      → ∀ i, inSection sect chips i = true
        → selectAllInSection sect chips sel i = false)
    ∧ ((∃ i, inSection sect chips i = true ∧ sel i = false)
      → ∀ i, inSection sect chips i = true
        → selectAllInSection sect chips sel i = true)
    ∧ (∀ i, inSection sect chips i = false
        → selectAllInSection sect chips sel i = sel i)
    ∧ ((∃ i, inSection sect chips i = true ∧ sel i = false)
      → ∀ i, inSection sect chips i = true
        → selectAllInSection sect chips (selectAllInSection sect chips sel) i
          = false) := by
  refine ⟨selectAll_clears_of_all sect chips sel,
    selectAll_fills_of_exists sect chips sel, ?_, ?_⟩
  · intro i hi
    simp [selectAllInSection, hi]
  · intro hex
    exact selectAll_clears_of_all sect chips (selectAllInSection sect chips sel)
      (selectAll_fills_of_exists sect chips sel hex)

/-- Witness for C5: a two-chip live section with only the first chip
selected — "Select All" selects both. -/
theorem select_all_in_section_toggle_witness :
    (∃ i, inSection "live" [newsCat, sportsCat] i = true ∧ selW i = false)
    ∧ (∀ i, inSection "live" [newsCat, sportsCat] i = true
        → selectAllInSection "live" [newsCat, sportsCat] selW i = true) :=
  ⟨⟨1, by decide, by decide⟩,
    (select_all_in_section_toggle "live" [newsCat, sportsCat] selW).2.1
      ⟨1, by decide, by decide⟩⟩

/-- C5 counterexample: a fully selected one-chip live section — the
first "Select All" click clears it and the second selects it again, so
two clicks with no intervening mutation do not return the section to
the unselected state. -/
theorem select_all_in_section_counterexample :
    inSection "live" [newsCat] 0 = true
    ∧ (fun _ => true : Nat → Bool) 0 = true
    ∧ selectAllInSection "live" [newsCat]
        (selectAllInSection "live" [newsCat] (fun _ => true)) 0 = true := by
  decide

/-- A single chip click flips only that chip, so the final selection
after a click sequence depends only on the parity of the number of
clicks each chip received. -/
theorem applyToggles_eq_parity (l : List Nat) (sel : Nat → Bool) (j : Nat) :
    applyToggles l sel j = if l.count j % 2 = 1 then !sel j else sel j := by
  induction l generalizing sel with
  | nil => simp [applyToggles]
  | cons i is ih =>
    have hstep : applyToggles (i :: is) sel = applyToggles is (toggleChip i sel) := rfl
    rw [hstep, ih]
    by_cases hij : j = i
    · subst hij
      by_cases hp : is.count j % 2 = 1
      · have h2 : ¬ ((is.count j + 1) % 2 = 1) := by omega
        simp [List.count_cons_self, toggleChip, hp, h2]
      · have h2 : (is.count j + 1) % 2 = 1 := by omega
        simp [List.count_cons_self, toggleChip, hp, h2]
    · rw [List.count_cons_of_ne (by simpa using hij)]
      simp [toggleChip, hij]

/-- Click sequences that are permutations of one another produce the
same selection. -/
theorem applyToggles_perm (l₁ l₂ : List Nat) (hp : l₁.Perm l₂) (sel : Nat → Bool) :
    applyToggles l₁ sel = applyToggles l₂ sel := by
  funext j
  rw [applyToggles_eq_parity, applyToggles_eq_parity, hp.count_eq]

/-- C10: the order of names handed to the comma-join is the grouped
display order — the chip list is the live categories in fetch order,
then vod, then series, the selected names are always a sublist of that
display order, and the outcome is invariant under reordering the user's
toggle clicks. -/
theorem selected_names_follow_display_order (cats : List Category)
    (l₁ l₂ : List Nat) (sel₀ : Nat → Bool) (hp : l₁.Perm l₂) :
    applyToggles l₁ sel₀ = applyToggles l₂ sel₀
    ∧ getSelectedCategories cats (applyToggles l₁ sel₀)
      = getSelectedCategories cats (applyToggles l₂ sel₀)
    ∧ chipList cats
      = cats.filter (fun c => effType c == "live")
        ++ cats.filter (fun c => effType c == "vod")
        ++ cats.filter (fun c => effType c == "series")
    ∧ (getSelectedCategories cats (applyToggles l₁ sel₀)).Sublist
        ((chipList cats).map (fun c => c.category_name)) := by
  have h1 := applyToggles_perm l₁ l₂ hp sel₀
  refine ⟨h1, by rw [h1], by simp [chipList, groupCategories_eq], ?_⟩
  have hs := List.Sublist.map (fun p : Nat × Category => p.2.category_name)
    (@List.filter_sublist _ (fun p => applyToggles l₁ sel₀ p.1)
      ((chipList cats).enum))
  have hmap : (chipList cats).enum.map (fun p : Nat × Category => p.2.category_name)
      = (chipList cats).map (fun c => c.category_name) := by
    have hcomp : (chipList cats).enum.map (fun p : Nat × Category => p.2.category_name)
        = ((chipList cats).enum.map Prod.snd).map (fun c => c.category_name) := by
      rw [List.map_map]
      rfl
    rw [hcomp, List.enum_map_snd]
  rw [hmap] at hs
  exact hs

/-- Witness for C10: two click orders of the same clicks on the
News/Movie catalogue. -/
theorem selected_names_follow_display_order_witness :
    ([0, 1, 0] : List Nat).Perm [0, 0, 1]
    ∧ (applyToggles [0, 1, 0] selW = applyToggles [0, 0, 1] selW
      ∧ getSelectedCategories [newsCat, movieCat] (applyToggles [0, 1, 0] selW)
        = getSelectedCategories [newsCat, movieCat] (applyToggles [0, 0, 1] selW)
      ∧ chipList [newsCat, movieCat]
        = List.filter (fun c => effType c == "live") [newsCat, movieCat]
          ++ List.filter (fun c => effType c == "vod") [newsCat, movieCat]
          ++ List.filter (fun c => effType c == "series") [newsCat, movieCat]
      ∧ (getSelectedCategories [newsCat, movieCat]
          (applyToggles [0, 1, 0] selW)).Sublist
          ((chipList [newsCat, movieCat]).map (fun c => c.category_name))) :=
  ⟨by decide,
    selected_names_follow_display_order [newsCat, movieCat] [0, 1, 0] [0, 0, 1]
      selW (by decide)⟩

/-- Trimming the empty string yields the empty string.  (`String.trim`
is defined by well-founded recursion, so this is proved by unfolding
the scanning loops one step.) -/
theorem trim_empty : "".trim = "" := by
  have h1 : Substring.takeWhileAux "" ⟨0⟩ Char.isWhitespace ⟨0⟩ = ⟨0⟩ := by
    rw [Substring.takeWhileAux]
    decide
  have h2 : Substring.takeRightWhileAux "" ⟨0⟩ Char.isWhitespace ⟨0⟩ = ⟨0⟩ := by
    rw [Substring.takeRightWhileAux]
    decide
  show ("").toSubstring.trim.toString = ""
  simp only [String.toSubstring, Substring.trim]
  have he : ("" : String).endPos = ⟨0⟩ := by decide
  rw [he, h1, h2]
  decide

/-- Trimming the one-letter string `"u"` is the identity. -/
theorem trim_u : "u".trim = "u" := by
  have h1 : Substring.takeWhileAux "u" ⟨1⟩ Char.isWhitespace ⟨0⟩ = ⟨0⟩ := by
    rw [Substring.takeWhileAux]
    decide
  have h2 : Substring.takeRightWhileAux "u" ⟨0⟩ Char.isWhitespace ⟨1⟩ = ⟨1⟩ := by
    rw [Substring.takeRightWhileAux]
    decide
  show ("u").toSubstring.trim.toString = "u"
  simp only [String.toSubstring, Substring.trim]
  have he : ("u" : String).endPos = ⟨1⟩ := by decide
  rw [he, h1, h2]
  decide

/-- The three possible outcomes of `loadCategories` on the page state:
unchanged (validation failure), categories replaced with the selection
cleared at step 2 (success), or back to step 1 (fetch failure). -/
theorem runLoadCategories_state (s : WizState)
    (respond : List (String × String) → Except ErrBody (List Category)) :
    (runLoadCategories s respond).1 = s
    ∨ (∃ data, (runLoadCategories s respond).1
        = { s with categories := data, selected := [], step := 2 })
    ∨ (runLoadCategories s respond).1 = { s with step := 1 } := by
  unfold runLoadCategories
  by_cases hv : s.url.trim = "" ∨ s.username.trim = "" ∨ s.password.trim = ""
  · rw [if_pos hv]
    exact Or.inl rfl
  · rw [if_neg hv]
    cases respond (buildCategoryParams s.url.trim s.username.trim
        s.password.trim s.includeVod) with
    | ok data => exact Or.inr (Or.inl ⟨data, rfl⟩)
    | error body => exact Or.inr (Or.inr rfl)

/-- The two possible outcomes of `confirmGeneration` on the page
state: a fresh object URL assigned at step 3 (success, the previous
URL not revoked), or back to step 2 (failure). -/
theorem runConfirmGeneration_state (s : WizState) (filterMode : String)
    (respond : List (String × String) → Except String Unit) :
    (runConfirmGeneration s filterMode respond).1
      = { s with
            href := some s.counter,
            live := s.counter :: s.live,
            counter := s.counter + 1,
            step := 3 }
    ∨ (runConfirmGeneration s filterMode respond).1 = { s with step := 2 } := by
  unfold runConfirmGeneration
  cases respond (buildPlaylistParams s.url.trim s.username.trim s.password.trim
      s.includeVod (getSelectedCategories s.categories (fun i => s.selected.contains i))
      filterMode) with
  | ok u => exact Or.inl rfl
  | error txt => exact Or.inr rfl

/-- The artifact invariant holds on the fresh page. -/
theorem artifactInv_init : ArtifactInv initState := Or.inl rfl

/-- Every wizard transition preserves the artifact invariant. -/
theorem artifactInv_step {s s' : WizState} (h : ArtifactInv s) (hs : WStep s s') :
    ArtifactInv s' := by
  cases hs with
  | load respond h1 =>
    have hlive : s.live = [] := by
      rcases h with h | ⟨n, -, -, h3⟩
      · exact h
      · rw [h1] at h3
        exact absurd h3 (by norm_num)
    rcases runLoadCategories_state s respond with he | ⟨data, he⟩ | he <;>
      rw [he] <;> exact Or.inl hlive
  | generate filterMode respond h1 =>
    have hlive : s.live = [] := by
      rcases h with h | ⟨n, -, -, h3⟩
      · exact h
      · rw [h1] at h3
        exact absurd h3 (by norm_num)
    rcases runConfirmGeneration_state s filterMode respond with he | he <;> rw [he]
    · exact Or.inr ⟨s.counter, by rw [hlive], rfl, rfl⟩
    · exact Or.inl hlive
  | startOverBtn h1 =>
    rcases h with h | ⟨n, h2, h3, -⟩
    · refine Or.inl ?_
      show (match s.href with
        | some n => s.live.erase n
        | none => s.live) = []
      cases s.href with
      | none => exact h
      | some m => rw [h]; rfl
    · refine Or.inl ?_
      show (match s.href with
        | some n => s.live.erase n
        | none => s.live) = []
      rw [h3, h2]
      simp
  | useOtherBtn h1 =>
    have hlive : s.live = [] := by
      rcases h with h | ⟨n, -, -, h3⟩
      · exact h
      · rw [h1] at h3
        exact absurd h3 (by norm_num)
    exact Or.inl hlive
  | goBackBtn h1 =>
    have hlive : s.live = [] := by
      rcases h with h | ⟨n, -, -, h3⟩
      · exact h
      · rw [h1] at h3
        exact absurd h3 (by norm_num)
    exact Or.inl hlive

/-- Every reachable page state satisfies the artifact invariant. -/
theorem artifactInv_reachable {s : WizState} (h : Reachable s) : ArtifactInv s := by
  induction h with
  | start => exact artifactInv_init
  | next hr hs ih => exact artifactInv_step ih hs

/-- C9: in every reachable page state at most one object URL is live;
away from the `Result` step none is live (so each re-entry into
`Credentials` happens with the previous artifact already released —
`startOver` releases it, the step-2 returns have nothing live); and
`startOver` discards the credentials, the category store, the
selection, and every live artifact reference. -/
theorem artifact_reference_released (s : WizState) (h : Reachable s) :
    s.live.length ≤ 1
    ∧ (s.step ≠ 3 → s.live = [])
    ∧ (startOver s).live = []
    ∧ (startOver s).categories = []
    ∧ (startOver s).selected = []
    ∧ (startOver s).url = ""
    ∧ (startOver s).username = ""
    ∧ (startOver s).password = ""
    ∧ (startOver s).includeVod = false := by
  have hinv : ArtifactInv s := artifactInv_reachable h
  have hlen : s.live.length ≤ 1 := by
    rcases hinv with h1 | ⟨n, h1, -, -⟩ <;> rw [h1] <;> simp
  have hstep : s.step ≠ 3 → s.live = [] := by
    intro h3
    rcases hinv with h1 | ⟨n, -, -, h1⟩
    · exact h1
    · exact absurd h1 h3
  have hso : (startOver s).live = [] := by
    show (match s.href with
      | some n => s.live.erase n
      | none => s.live) = []
    rcases hinv with h1 | ⟨n, h1, h2, -⟩
    · cases s.href with
      | none => exact h1
      | some m => rw [h1]; rfl
    · rw [h2, h1]
      simp
  exact ⟨hlen, hstep, hso, rfl, rfl, rfl, rfl, rfl, rfl⟩

/-- Witness for C9: the fresh page is reachable. -/
theorem artifact_reference_released_witness :
    initState.live.length ≤ 1
    ∧ (initState.step ≠ 3 → initState.live = [])
    ∧ (startOver initState).live = []
    ∧ (startOver initState).categories = []
    ∧ (startOver initState).selected = []
    ∧ (startOver initState).url = ""
    ∧ (startOver initState).username = ""
    ∧ (startOver initState).password = ""
    ∧ (startOver initState).includeVod = false :=
  artifact_reference_released initState Reachable.start

/-- C6: the category request is sent exactly when all three trimmed
credentials are non-empty; when one is empty a validation error is
shown, no request is sent, and the page state is unchanged. -/
theorem load_requires_credentials (s : WizState)
    (respond : List (String × String) → Except ErrBody (List Category)) :
    ((∃ q, (runLoadCategories s respond).2.1 = some q)
      ↔ (s.url.trim ≠ "" ∧ s.username.trim ≠ "" ∧ s.password.trim ≠ ""))
    ∧ ((s.url.trim = "" ∨ s.username.trim = "" ∨ s.password.trim = "")
      → (runLoadCategories s respond).1 = s
        ∧ (runLoadCategories s respond).2.1 = none
        ∧ (runLoadCategories s respond).2.2
          = some "Please fill in all required fields") := by
  unfold runLoadCategories
  by_cases hv : s.url.trim = "" ∨ s.username.trim = "" ∨ s.password.trim = ""
  · rw [if_pos hv]
    constructor
    · constructor
      · rintro ⟨q, hq⟩
        exact absurd hq (by simp)
      · intro hne
        exact absurd hv (by tauto)
    · intro _
      exact ⟨rfl, rfl, rfl⟩
  · rw [if_neg hv]
    have hv' : s.url.trim ≠ "" ∧ s.username.trim ≠ "" ∧ s.password.trim ≠ "" := by
      tauto
    cases respond (buildCategoryParams s.url.trim s.username.trim
        s.password.trim s.includeVod) with
    | ok data =>
      exact ⟨⟨fun _ => hv', fun _ => ⟨_, rfl⟩⟩, fun hc => absurd hc (by tauto)⟩
    | error body =>
      exact ⟨⟨fun _ => hv', fun _ => ⟨_, rfl⟩⟩, fun hc => absurd hc (by tauto)⟩

/-- Witness for C6: empty credentials on the fresh page send nothing
and change nothing. -/
theorem load_requires_credentials_witness :
    (initState.url.trim = "" ∨ initState.username.trim = ""
      ∨ initState.password.trim = "")
    ∧ ((runLoadCategories initState failRespond).1 = initState
      ∧ (runLoadCategories initState failRespond).2.1 = none
      ∧ (runLoadCategories initState failRespond).2.2
        = some "Please fill in all required fields") :=
  ⟨Or.inl trim_empty,
    (load_requires_credentials initState failRespond).2 (Or.inl trim_empty)⟩

/-- C7 (amended): a failed category fetch leaves the controller at
step 1 with the rest of the state unchanged, and the surfaced message
prefers the backend `details` field when present and non-empty, then
the `error` field when present and non-empty, then the generic
message. -/
theorem load_failure_error_preference (s : WizState)
    (respond : List (String × String) → Except ErrBody (List Category))
    (body : ErrBody)
    (hne : s.url.trim ≠ "" ∧ s.username.trim ≠ "" ∧ s.password.trim ≠ "")
    (hres : respond (buildCategoryParams s.url.trim s.username.trim
        s.password.trim s.includeVod) = .error body) :
    (runLoadCategories s respond).1 = { s with step := 1 }
    ∧ (runLoadCategories s respond).2.2
      = some ("Failed to load categories: " ++ pickLoadErrorMessage body)
    ∧ (∀ d, body.details = some d → d ≠ "" → pickLoadErrorMessage body = d)
    ∧ (∀ e, (body.details = none ∨ body.details = some "")
        → body.error = some e → e ≠ "" → pickLoadErrorMessage body = e)
    ∧ ((body.details = none ∨ body.details = some "")
        → (body.error = none ∨ body.error = some "")
        → pickLoadErrorMessage body = "Failed to load categories") := by
  have hv : ¬ (s.url.trim = "" ∨ s.username.trim = "" ∨ s.password.trim = "") := by
    tauto
  refine ⟨?_, ?_, ?_, ?_, ?_⟩
  · unfold runLoadCategories
    rw [if_neg hv, hres]
  · unfold runLoadCategories
    rw [if_neg hv, hres]
  · intro d hd hdne
    simp [pickLoadErrorMessage, jsOrStr, hd, hdne]
  · intro e hd he hene
    rcases hd with hd | hd <;> simp [pickLoadErrorMessage, jsOrStr, hd, he, hene]
  · intro hd he
    rcases hd with hd | hd <;> rcases he with he | he <;>
      simp [pickLoadErrorMessage, jsOrStr, hd, he]

/-- The concrete credentials state has non-empty trimmed fields. -/
theorem hcredTrim :
    credState.url.trim ≠ "" ∧ credState.username.trim ≠ ""
      ∧ credState.password.trim ≠ "" := by
  refine ⟨?_, ?_, ?_⟩ <;>
    · show ("u").trim ≠ ""
      rw [trim_u]
      decide

/-- Witness for C7: a failing fetch with credentials filled in. -/
theorem load_failure_error_preference_witness :
    ((credState.url.trim ≠ "" ∧ credState.username.trim ≠ ""
        ∧ credState.password.trim ≠ "")
      ∧ failRespond (buildCategoryParams credState.url.trim credState.username.trim
          credState.password.trim credState.includeVod)
        = .error ⟨some "Boom", none⟩)
    ∧ ((runLoadCategories credState failRespond).1 = { credState with step := 1 }
      ∧ (runLoadCategories credState failRespond).2.2
        = some ("Failed to load categories: "
            ++ pickLoadErrorMessage ⟨some "Boom", none⟩)
      ∧ (∀ d, (⟨some "Boom", none⟩ : ErrBody).details = some d → d ≠ ""
          → pickLoadErrorMessage ⟨some "Boom", none⟩ = d)
      ∧ (∀ e, ((⟨some "Boom", none⟩ : ErrBody).details = none
            ∨ (⟨some "Boom", none⟩ : ErrBody).details = some "")
          → (⟨some "Boom", none⟩ : ErrBody).error = some e → e ≠ ""
          → pickLoadErrorMessage ⟨some "Boom", none⟩ = e)
      ∧ (((⟨some "Boom", none⟩ : ErrBody).details = none
            ∨ (⟨some "Boom", none⟩ : ErrBody).details = some "")
          → ((⟨some "Boom", none⟩ : ErrBody).error = none
            ∨ (⟨some "Boom", none⟩ : ErrBody).error = some "")
          → pickLoadErrorMessage ⟨some "Boom", none⟩
            = "Failed to load categories")) :=
  ⟨⟨hcredTrim, rfl⟩,
    load_failure_error_preference credState failRespond ⟨some "Boom", none⟩
      hcredTrim rfl⟩

/-- C7 counterexample: with `details` present but empty and `error`
present, the code surfaces the `error` value, not the (empty) `details`
value — field presence alone does not decide the preference, JS `||`
falsiness does. -/
theorem load_error_preference_counterexample :
    emptyDetailsBody.details = some ""
    ∧ pickLoadErrorMessage emptyDetailsBody = "Boom"
    ∧ pickLoadErrorMessage emptyDetailsBody ≠ "" := by
  decide

/-- C8: "use other credentials" clears exactly the three credential
fields (and shows step 1); "go back" changes nothing but the step;
both keep the stored category list and the current selection. -/
theorem back_transitions_preserve_store (s : WizState) :
    useOtherCredentials s
      = { s with url := "", username := "", password := "", step := 1 }
    ∧ (useOtherCredentials s).categories = s.categories
    ∧ (useOtherCredentials s).selected = s.selected
    ∧ (useOtherCredentials s).includeVod = s.includeVod
    ∧ (useOtherCredentials s).href = s.href
    ∧ goBackToStep1 s = { s with step := 1 }
    ∧ (goBackToStep1 s).categories = s.categories
    ∧ (goBackToStep1 s).selected = s.selected
    ∧ (goBackToStep1 s).url = s.url
    ∧ (goBackToStep1 s).username = s.username
    ∧ (goBackToStep1 s).password = s.password :=
  ⟨rfl, rfl, rfl, rfl, rfl, rfl, rfl, rfl, rfl, rfl, rfl⟩

/-- C4: `include_vod` appears (with the literal value `"true"`) in the
category query and in the playlist query exactly when the VOD checkbox
is checked; when it is unchecked the key is absent from both. -/
theorem include_vod_presence (url username password : String) (includeVod : Bool)
    (selectedCategories : List String) (filterMode : String) :
    getParam "include_vod" (buildCategoryParams url username password includeVod)
      = (if includeVod then some "true" else none)
    ∧ getParam "include_vod"
        (buildPlaylistParams url username password includeVod selectedCategories filterMode)
      = (if includeVod then some "true" else none) := by
  cases includeVod <;> cases selectedCategories <;>
    by_cases hm : filterMode = "include" <;>
      simp [buildCategoryParams, buildPlaylistParams, getParam, hm]

end Xtream2m3u
